import Mathlib

/-!
# Verification of the infracost cloud-pricing-api IBM scrapers

Shallow embedding of the catalog-traversal and price-normalization pipeline of
the repository (src/src/scrapers/ibmKubernetes.ts, ibmInstances.ts,
ibmCatalog.ts, ibmCloud.ts and the redundant scraper variants shipped alongside
them), together with proofs about its data flow.

Modelling conventions:
* JavaScript numbers that the scrapers feed through `String(...)` are all
  integral quantities (tier thresholds, usage amounts, counts, offsets); they
  are modelled as `Nat` and rendered with `toString`.
* JavaScript `undefined` is modelled as `Option.none`; JS truthiness of a
  possibly-undefined number is `getD 0 ≠ 0` (0 and undefined are falsy) and of
  a possibly-undefined string is `getD "" ≠ ""` ("" and undefined are falsy).
* JS objects used as string-keyed records (insertion ordered) are modelled as
  association lists; `Object.entries` is the list itself.
* Code paths that throw a runtime `TypeError` (e.g. `Object.entries` applied to
  `undefined`) are modelled by returning `none` from an `Option`-valued
  function.
* The md5 digest of `db/helpers.ts` (not part of the sources) is abstracted as
  a `String → String` parameter; the scrapers' own doc comments record that
  `productHash = md5(vendorName + region + sku)`.
-/

/-- JS truthiness of a possibly-undefined number (`undefined` and `0` are falsy). -/
def truthyN (o : Option Nat) : Bool := o.getD 0 != 0

/-- JS truthiness of a possibly-undefined string (`undefined` and `""` are falsy). -/
def truthyS (o : Option String) : Bool := o.getD "" != ""

/-- JS template-literal rendering of a possibly-undefined string
(`${undefined}` prints the text "undefined"). -/
def jsStr (o : Option String) : String := o.getD "undefined"

/-- `pat` occurs at the head of `s` (character-list version). -/
def charsLeading : List Char → List Char → Bool
  | [], _ => true
  | _ :: _, [] => false
  | a :: asx, b :: bs => a == b && charsLeading asx bs

/-- `pat` occurs somewhere inside `s` (character-list version). -/
def charsContain (pat : List Char) : List Char → Bool
  | [] => pat.isEmpty
  | a :: rest => charsLeading pat (a :: rest) || charsContain pat rest

/-- JS `s.match(/pat/)` for a plain-text pattern: substring containment. -/
def strContains (s pat : String) : Bool := charsContain pat.data s.data

/-- A normalized price row (db/types.ts `Price`); the union of the fields the
scrapers assign, optional where a scraper may leave the field unset. -/
structure Price where
  priceHash : String
  purchaseOption : String
  tierModel : Option String := none
  unit : String
  USD : Option String := none
  startUsageAmount : Option String := none
  endUsageAmount : Option String := none
  effectiveDateStart : String
  effectiveDateEnd : Option String := none
  termLength : Option String := none
  description : Option String := none
  country : Option String := none
  currency : Option String := none
  partNumber : Option String := none
  deriving Repr, DecidableEq

/-- A normalized product (db/types.ts `Product`); `attributes` is a JSON
object, modelled as an insertion-ordered association list. -/
structure Product where
  productHash : String
  sku : String
  vendorName : String
  region : String
  service : String
  productFamily : String
  attributes : List (String × Option String)
  prices : List Price
  deriving Repr, DecidableEq

/-- Modelled from the spec: `generateProductHash` lives in db/helpers.ts which
is not among the sources; the scrapers' doc comments ("productHash:
md5(vendorName + region + sku)") and spec §4.4 define it as a digest of the
concatenated identity fields.  `digest` abstracts md5. -/
def generateProductHash (digest : String → String) (p : Product) : String :=
  digest (p.vendorName ++ p.region ++ p.sku)

/-! ## ibmKubernetes.ts -/

/-- ibmKubernetes.ts `ibmTiersJson`. -/
structure IbmTierJson where
  price : Nat
  instance_hours : Option Nat := none
  deriving Repr, DecidableEq

/-- ibmKubernetes.ts `ibmProductJson` (shape of the downloaded pricing JSON). -/
structure IbmProductJson where
  plan_id : String
  region : String
  flavor : String
  operating_system : String
  unit : String
  price : String
  country : String
  currency : String
  tiers : List IbmTierJson
  provider : Option String := none
  isolation : Option String := none
  contract_duration : Option String := none
  ocp_included : Option String := none
  flavor_class : Option String := none
  catalog_region : Option String := none
  server_type : Option String := none
  min_quantity : Option Nat := none
  max_quantity : Option Nat := none
  deprecated : Option String := none
  billing_type : Option String := none
  effective_from : Option String := none
  effective_until : Option String := none
  deriving Repr, DecidableEq

/-- ibmCatalog.ts `PricingModels` (string enum). -/
def PricingModels.LINEAR : String := "Linear"

def PricingModels.PRORATION : String := "Proration"

def PricingModels.GRANULAR_TIER : String := "Granular Tier"

def PricingModels.STEP_TIER : String := "Step Tier"

def PricingModels.BLOCK_TIER : String := "Block Tier"

/-- ibmKubernetes.ts `getStartUsageAmount`: min_quantity if truthy, else the
previous tier's instance_hours (or "0") when this tier has instance_hours,
else "". -/
def getStartUsageAmount (productJson : IbmProductJson) (tierJson : IbmTierJson)
    (prevTierJson : IbmTierJson) : String :=
  if truthyN productJson.min_quantity then toString (productJson.min_quantity.getD 0)
  else if truthyN tierJson.instance_hours then
    if truthyN prevTierJson.instance_hours then toString (prevTierJson.instance_hours.getD 0)
    else "0"
  else ""

/-- ibmKubernetes.ts `lastThresholdAmountPattern`: the regex /999999999/
(substring match against the decimal rendering). -/
def lastThresholdAmountPattern : String := "999999999"

/-- ibmKubernetes.ts `getEndUsageAmount`: max_quantity if truthy; else
instance_hours, rendered as "Inf" when its decimal string matches /999999999/;
else "". -/
def getEndUsageAmount (productJson : IbmProductJson) (tierJson : IbmTierJson) : String :=
  if truthyN productJson.max_quantity then toString (productJson.max_quantity.getD 0)
  else if truthyN tierJson.instance_hours then
    if strContains (toString (tierJson.instance_hours.getD 0)) lastThresholdAmountPattern
    then "Inf"
    else toString (tierJson.instance_hours.getD 0)
  else ""

/-- One iteration of ibmKubernetes.ts `parsePrices`' tier loop: the price row
for tier `tierJson` with predecessor `prevTierJson` (the loop uses the literal
`{price: 0}` when there is no predecessor). -/
def parsePriceRow (genPriceHash : Product → Price → String) (product : Product)
    (productJson : IbmProductJson) (numTiers : Nat)
    (tierJson prevTierJson : IbmTierJson) : Price :=
  let price : Price :=
    { priceHash := ""
      purchaseOption := ""
      tierModel := some (if numTiers > 1 then PricingModels.STEP_TIER else PricingModels.LINEAR)
      unit := productJson.unit
      USD := some (toString tierJson.price)
      effectiveDateStart := if truthyS productJson.effective_from then productJson.effective_from.getD "" else ""
      effectiveDateEnd := some (if truthyS productJson.effective_until then productJson.effective_until.getD "" else "")
      startUsageAmount := some (getStartUsageAmount productJson tierJson prevTierJson)
      endUsageAmount := some (getEndUsageAmount productJson tierJson)
      termLength := productJson.contract_duration }
  { price with priceHash := genPriceHash product price }

/-- The tier loop of ibmKubernetes.ts `parsePrices`, carrying the previous
tier. -/
def parsePricesLoop (genPriceHash : Product → Price → String) (product : Product)
    (productJson : IbmProductJson) (numTiers : Nat)
    (prev : IbmTierJson) : List IbmTierJson → List Price
  | [] => []
  | t :: rest =>
      parsePriceRow genPriceHash product productJson numTiers t prev ::
        parsePricesLoop genPriceHash product productJson numTiers t rest

/-- ibmKubernetes.ts `parsePrices`. -/
def parsePrices (genPriceHash : Product → Price → String) (product : Product)
    (productJson : IbmProductJson) : List Price :=
  parsePricesLoop genPriceHash product productJson productJson.tiers.length
    { price := 0 } productJson.tiers

/-- ibmKubernetes.ts `parseAttributes` (record fields in declaration order). -/
def parseAttributes (productJson : IbmProductJson) : List (String × Option String) :=
  [("currency", some productJson.currency),
   ("provider", productJson.provider),
   ("flavor", some productJson.flavor),
   ("isolation", productJson.isolation),
   ("operatingSystem", some productJson.operating_system),
   ("ocpIncluded", productJson.ocp_included),
   ("catalogRegion", productJson.catalog_region),
   ("serverType", productJson.server_type),
   ("billingType", productJson.billing_type),
   ("country", some productJson.country)]

/-- ibmKubernetes.ts `parseIbmProduct`: the productHash is computed before
attributes and prices are filled in. -/
def parseIbmProduct (digest : String → String) (genPriceHash : Product → Price → String)
    (productJson : IbmProductJson) : Product :=
  let product : Product :=
    { productHash := ""
      sku := productJson.plan_id ++ "-" ++ productJson.country ++ "-" ++ productJson.currency
              ++ "-" ++ productJson.flavor ++ "-" ++ productJson.operating_system
      vendorName := "ibm"
      region := productJson.region
      service := "containers-kubernetes"
      productFamily := ""
      attributes := []
      prices := [] }
  let product := { product with productHash := generateProductHash digest product }
  let product := { product with attributes := parseAttributes productJson }
  { product with prices := parsePrices genPriceHash product productJson }

/-- ibmKubernetes.ts `isDeprecated`: `!!productJson?.deprecated`. -/
def isDeprecated (productJson : IbmProductJson) : Bool :=
  truthyS productJson.deprecated

/-- The product-collection loop of ibmKubernetes.ts `loadAll`:
`Object.values(json).forEach(group => group.forEach(p => if (!isDeprecated p) push (parseIbmProduct p)))`. -/
def loadAllProducts (digest : String → String) (genPriceHash : Product → Price → String)
    (json : List (String × List IbmProductJson)) : List Product :=
  json.foldl
    (fun products group =>
      group.2.foldl
        (fun acc pj =>
          if !isDeprecated pj then acc ++ [parseIbmProduct digest genPriceHash pj] else acc)
        products)
    []

/-! ## ibmCatalog.ts — pricing leaves and normalization -/

/-- ibmCatalog.ts `GCPrice`: one `(price, quantity_tier)` tier point. -/
structure GCPrice where
  price : Nat
  quantity_tier : Nat
  deriving Repr, DecidableEq

/-- One element of a metric's `amounts` array (country/currency bucket of the
Global Catalog response). -/
structure AmountEntry where
  country : Option String := none
  currency : Option String := none
  prices : Option (List GCPrice) := none
  deriving Repr, DecidableEq

/-- One element of the `metrics` array of a Global Catalog pricing response
(`GlobalCatalogV1.Metrics`), restricted to the fields the scrapers read. -/
structure GCMetric where
  metric_id : Option String := none
  amounts : Option (List AmountEntry) := none
  tier_model : Option String := none
  charge_unit_name : Option String := none
  charge_unit : Option String := none
  charge_unit_quantity : Option String := none
  usage_cap_qty : Option Nat := none
  display_cap : Option Nat := none
  effective_from : Option String := none
  effective_until : Option String := none
  deriving Repr, DecidableEq

/-- A Global Catalog per-node pricing payload (`PricingGet`), restricted to the
fields the scrapers read.  `metrics = none` models a response without a
`metrics` property (the `'metrics' in pricingObject` check). -/
structure PricingGet where
  type : String := ""
  deployment_location : String := ""
  metrics : Option (List GCMetric) := none
  deriving Repr, DecidableEq

/-- ibmCatalog.ts `UsageMetrics` (per-metric record stored under the metric
id). -/
structure UsageMetrics where
  tierModel : Option String := none
  chargeUnitName : Option String := none
  chargeUnit : Option String := none
  chargeUnitQty : Option String := none
  usageCapQty : Option Nat := none
  displayCap : Option Nat := none
  effectiveFrom : Option String := none
  effectiveUntil : Option String := none
  deriving Repr, DecidableEq

/-- `AmountsRecord`: geo key `"country-currency"` → metric id → tier points
(insertion-ordered string-keyed records as association lists). -/
abbrev AmountsRecord := List (String × List (String × List GCPrice))

/-- `MetricsRecord`: metric id → `UsageMetrics`. -/
abbrev MetricsRecord := List (String × UsageMetrics)

/-- ibmCatalog.ts `AmountsAndMetrics` (either record may be `undefined`). -/
structure AmountsAndMetrics where
  amounts : Option AmountsRecord := none
  metrics : Option MetricsRecord := none
  deriving Repr, DecidableEq

/-- ibmCatalog.ts `PricingMetaData`. -/
structure PricingMetaData where
  type : String
  region : String
  amounts : Option AmountsRecord := none
  metrics : Option MetricsRecord := none
  deriving Repr, DecidableEq

/-- JS record assignment `rec[k] = v` on a string-keyed object: replace in
place if the key exists, else append. -/
def recSet (k : String) (v : α) : List (String × α) → List (String × α)
  | [] => [(k, v)]
  | (k', v') :: rest =>
      if k' == k then (k, v) :: rest else (k', v') :: recSet k v rest

/-- The `amounts?.forEach` body of `parsePricingJson`: fold one `AmountEntry`
into the nested amounts record (skipped unless prices nonempty and country and
currency truthy). -/
def addAmount (metricId : String) (acc : AmountsAndMetrics) (amount : AmountEntry) :
    AmountsAndMetrics :=
  if ((amount.prices.getD []).length != 0) && truthyS amount.country
      && truthyS amount.currency then
    let key := amount.country.getD "" ++ "-" ++ amount.currency.getD ""
    match acc.amounts with
    | none => acc
    | some am =>
        match List.lookup key am with
        | some inner => { acc with amounts := some (recSet key (recSet metricId (amount.prices.getD []) inner) am) }
        | none => { acc with amounts := some (am ++ [(key, [(metricId, amount.prices.getD [])])]) }
  else acc

/-- The `metrics.reduce` step of ibmCatalog.ts `parsePricingJson`. -/
def parsePricingStep (collection : AmountsAndMetrics) (metric : GCMetric) :
    AmountsAndMetrics :=
  if !truthyS metric.metric_id then collection
  else
    match collection.metrics with
    | none => collection
    | some ms =>
        let metricId := metric.metric_id.getD ""
        let collection :=
          { collection with
            metrics := some (recSet metricId
              { tierModel := metric.tier_model
                chargeUnitName := metric.charge_unit_name
                chargeUnit := metric.charge_unit
                chargeUnitQty := metric.charge_unit_quantity
                usageCapQty := metric.usage_cap_qty
                displayCap := metric.display_cap
                effectiveFrom := metric.effective_from
                effectiveUntil := metric.effective_until } ms) }
        (metric.amounts.getD []).foldl (addAmount metricId) collection

/-- ibmCatalog.ts `parsePricingJson` (identical in the part_003 and part_000
variants): `none` when the payload has no `metrics` property; an empty metrics
array yields a `PricingMetaData` whose records are absent. -/
def parsePricingJson (pricingObject : PricingGet) : Option PricingMetaData :=
  match pricingObject.metrics with
  | none => none
  | some ms =>
      if ms.length != 0 then
        let acc := ms.foldl parsePricingStep { amounts := some [], metrics := some [] }
        some { type := pricingObject.type
               region := pricingObject.deployment_location
               amounts := acc.amounts
               metrics := acc.metrics }
      else
        some { type := pricingObject.type, region := pricingObject.deployment_location }

/-- Exception-propagating map over `Option` (JS `Array.map` whose callback may
throw; a throw aborts the enclosing call). -/
def optMapM (f : α → Option β) : List α → Option (List β)
  | [] => some []
  | a :: rest =>
      match f a, optMapM f rest with
      | some b, some bs => some (b :: bs)
      | _, _ => none

/-- The price row built for one tier point by ibmCatalog.ts `getPrices`
(src/src version: no `startUsageAmount`, no "Inf" substitution). -/
def catalogPriceRow (nowISO : String) (md : UsageMetrics) (partNumber country currency : String)
    (cost : GCPrice) : Price :=
  { priceHash := jsStr md.chargeUnitName ++ "-" ++ jsStr md.chargeUnitQty ++ "-" ++ country
      ++ "-" ++ currency ++ "-" ++ toString cost.quantity_tier ++ "-" ++ partNumber
    purchaseOption := jsStr md.chargeUnitQty
    USD := some (toString cost.price)
    endUsageAmount := some (toString cost.quantity_tier)
    tierModel := md.tierModel
    description := md.chargeUnit
    unit := md.chargeUnitName.getD ""
    effectiveDateStart := md.effectiveFrom.getD nowISO
    effectiveDateEnd := md.effectiveUntil
    country := some country
    currency := some currency
    partNumber := some partNumber }

/-- ibmCatalog.ts `getPrices` (src/src version).  `Object.entries` is applied
to `amounts[geoKey]` without a guard, so a missing geo bucket is a thrown
`TypeError`, modelled as `none`; a missing `metrics[partNumber]` record
likewise throws during destructuring.  `nowISO` stands for
`new Date().toISOString()`. -/
def getPricesCatalog (nowISO : String) (pricing : PricingMetaData)
    (country currency : String) : Option (List Price) :=
  match pricing.metrics, pricing.amounts with
  | some ms, some am =>
      let geoKey := country ++ "-" ++ currency
      match List.lookup geoKey am with
      | none => none
      | some bucket =>
          (optMapM (fun pc =>
            (List.lookup pc.1 ms).map (fun md =>
              pc.2.map (catalogPriceRow nowISO md pc.1 country currency))) bucket).map List.flatten
  | _, _ => some []

/-- The price row built by the part_003 variant of `getPrices`, which also
fills `startUsageAmount` from the previous tier point
(`prevCost?.quantity_tier ? String(prevCost?.quantity_tier) : '0'`). -/
def catalogPriceRowV2 (nowISO : String) (md : UsageMetrics) (partNumber country currency : String)
    (prevCost : Option GCPrice) (cost : GCPrice) : Price :=
  { catalogPriceRow nowISO md partNumber country currency cost with
    startUsageAmount := some
      (if truthyN (prevCost.map GCPrice.quantity_tier)
       then toString ((prevCost.map GCPrice.quantity_tier).getD 0)
       else "0") }

/-- The inner tier loop of the part_003 `getPrices`: indexes `costs` and pairs
each cost with its predecessor. -/
def catalogTierLoop (nowISO : String) (md : UsageMetrics) (partNumber country currency : String)
    (prevCost : Option GCPrice) : List GCPrice → List Price
  | [] => []
  | c :: rest =>
      catalogPriceRowV2 nowISO md partNumber country currency prevCost c ::
        catalogTierLoop nowISO md partNumber country currency (some c) rest

/-- part_003's `getPrices`: guards the geo bucket (`!amounts[geoKey]` returns
the empty list) but still throws if a part number is missing from `metrics`. -/
def getPricesV2 (nowISO : String) (pricing : PricingMetaData)
    (country currency : String) : Option (List Price) :=
  match pricing.metrics, pricing.amounts with
  | some ms, some am =>
      let geoKey := country ++ "-" ++ currency
      match List.lookup geoKey am with
      | none => some []
      | some bucket =>
          (optMapM (fun pc =>
            (List.lookup pc.1 ms).map (fun md =>
              catalogTierLoop nowISO md pc.1 country currency none pc.2)) bucket).map List.flatten
  | _, _ => some []

/-- ibmCatalog.ts `getAttributes` (the `ibmAttributes` record as an
association list; `startPrice`/`startQuantityTier` are never assigned). -/
def getAttributes (pricing : PricingMetaData) (planName : String) :
    List (String × Option String) :=
  [("planName", some planName),
   ("planType", some pricing.type),
   ("region", some pricing.region)]

/-! ## ibmCatalog.ts — catalog tree and pricing walk -/

/-- A Global Catalog entry with its (possibly undefined) `children` array and
the `pricingChildren` the walker attaches (`CatalogEntry` in ibmCatalog.ts). -/
inductive CatalogEntry where
  | mk (id kind name : String) (group : Bool)
      (children : Option (List CatalogEntry))
      (pricingChildren : Option (List PricingGet))

def CatalogEntry.id : CatalogEntry → String
  | .mk i _ _ _ _ _ => i

def CatalogEntry.kind : CatalogEntry → String
  | .mk _ k _ _ _ _ => k

def CatalogEntry.name : CatalogEntry → String
  | .mk _ _ n _ _ _ => n

def CatalogEntry.group : CatalogEntry → Bool
  | .mk _ _ _ g _ _ => g

def CatalogEntry.children : CatalogEntry → Option (List CatalogEntry)
  | .mk _ _ _ _ cs _ => cs

def CatalogEntry.pricingChildren : CatalogEntry → Option (List PricingGet)
  | .mk _ _ _ _ _ pr => pr

/-- Outcome of one `axiosClient.get(`/${id}/pricing`)` call: a 2xx body
(possibly empty), an axios error carrying an HTTP status (or none), or a
non-axios failure. -/
inductive FetchResult where
  | ok (pricing : Option PricingGet)
  | axiosErr (status : Option Nat)
  | otherErr (isErrorInstance : Bool)

/-- The error log entries produced by the catch block of
`fetchPricingForProduct` for one failed fetch: an axios error is logged unless
its status is exactly 404; any non-axios failure is logged. -/
def fetchLogs : FetchResult → List String
  | .ok _ => []
  | .axiosErr status => if status == some 404 then [] else ["axios error"]
  | .otherErr true => ["error message"]
  | .otherErr false => ["unknown error"]

/-- Effect of one fetch on an element's `pricingChildren`: a truthy body is
attached as a singleton; an empty body or any caught error leaves the element
unchanged. -/
def attachResult (r : FetchResult) (pr : Option (List PricingGet)) :
    Option (List PricingGet) :=
  match r with
  | .ok (some p) => some [p]
  | _ => pr

/-- lodash `_.chunk(l, 8)`: consecutive chunks of at most 8 elements. -/
def chunk8 : List α → List (List α)
  | [] => []
  | a :: rest => ((a :: rest).take 8) :: chunk8 ((a :: rest).drop 8)
  termination_by l => l.length
  decreasing_by simp; omega

/-- The `deploymentChildren` filter of `fetchPricingForProduct`. -/
def deploymentChildrenOf (e : CatalogEntry) : List CatalogEntry :=
  (e.children.getD []).filter (fun c => c.kind == "deployment")

/-- Fetch targets of a popped `plan` node in src/src ibmCatalog.ts:
`[currentElem, ...deploymentChildren]`. -/
def fetchTargets (e : CatalogEntry) : List CatalogEntry :=
  e :: deploymentChildrenOf e

/-- Fetch targets of a popped `plan` node in the part_003 variant: only the
deployment children. -/
def fetchTargetsV2 (e : CatalogEntry) : List CatalogEntry :=
  deploymentChildrenOf e

/- The stack walk of `fetchPricingForProduct`, written as structural
recursion: a node's `pricingChildren` is updated exactly when the walk fetches
pricing for it — when it is a `plan` with a defined `children` array
(`includeSelf` distinguishes src/src, which puts the plan itself in the chunk,
from part_003, which does not), or when it is a `deployment` child of such a
plan (`fromPlan`).  The chunked `Promise.all` fan-out only schedules these
per-element fetches; each element's final state depends only on its own fetch
result. -/
mutual

def walkEntry (includeSelf : Bool) (fetch : String → FetchResult) (fromPlan : Bool) :
    CatalogEntry → CatalogEntry
  | .mk i k n g cs pr =>
      let fetched := (includeSelf && k == "plan" && cs.isSome) || (fromPlan && k == "deployment")
      let pr' := if fetched then attachResult (fetch i) pr else pr
      .mk i k n g
        (match cs with
         | none => none
         | some l => some (walkChildren includeSelf fetch (k == "plan") l))
        pr'

def walkChildren (includeSelf : Bool) (fetch : String → FetchResult) (fromPlan : Bool) :
    List CatalogEntry → List CatalogEntry
  | [] => []
  | c :: cs =>
      walkEntry includeSelf fetch fromPlan c :: walkChildren includeSelf fetch fromPlan cs

end

/- The error-log trace of the walk (log order within a chunk is
nondeterministic in the source; the trace lists targets in stack order, which
is enough to reason about emptiness). -/
mutual

def walkLogsEntry (includeSelf : Bool) (fetch : String → FetchResult) (fromPlan : Bool) :
    CatalogEntry → List String
  | .mk i k _ _ cs _ =>
      let fetched := (includeSelf && k == "plan" && cs.isSome) || (fromPlan && k == "deployment")
      (if fetched then fetchLogs (fetch i) else []) ++
        (match cs with
         | none => []
         | some l => walkLogsChildren includeSelf fetch (k == "plan") l)

def walkLogsChildren (includeSelf : Bool) (fetch : String → FetchResult) (fromPlan : Bool) :
    List CatalogEntry → List String
  | [] => []
  | c :: cs =>
      walkLogsEntry includeSelf fetch fromPlan c ++ walkLogsChildren includeSelf fetch fromPlan cs

end

/-! ## ibmCatalog.ts — parseProducts -/

/-- Exception-propagating flat-map over `Option` (a thrown error inside a JS
loop aborts the enclosing call). -/
def optFlatM (f : α → Option (List β)) : List α → Option (List β)
  | [] => some []
  | a :: rest =>
      match f a, optFlatM f rest with
      | some xs, some ys => some (xs ++ ys)
      | _, _ => none

/-- The per-pricing body of `parseProducts` (src/src ibmCatalog.ts): parse the
leaf, extract USA/USD prices (which may throw, see `getPricesCatalog`), and
emit one product when any prices result. -/
def productOfPricing (digest : String → String) (nowISO serviceName planName productFamily : String)
    (pricing : PricingGet) : Option (List Product) :=
  match parsePricingJson pricing with
  | none => some []
  | some pp =>
      match getPricesCatalog nowISO pp "USA" "USD" with
      | none => none
      | some prices =>
          let attributes := getAttributes pp planName
          let region := if pp.region != "" then pp.region else "USA"
          if prices.length != 0 then
            let p : Product :=
              { productHash := ""
                sku := serviceName ++ "-" ++ planName
                vendorName := "ibm"
                region := region
                service := serviceName
                productFamily := productFamily
                attributes := attributes
                prices := prices }
            some [{ p with productHash := generateProductHash digest p }]
          else some []

/-- The deployment loop of `parseProducts`. -/
def deploymentProducts (digest : String → String) (nowISO serviceName planName productFamily : String)
    (d : CatalogEntry) : Option (List Product) :=
  match d.pricingChildren with
  | none => some []
  | some prs => optFlatM (productOfPricing digest nowISO serviceName planName productFamily) prs

/-- The plan loop of `parseProducts`. -/
def planProducts (digest : String → String) (nowISO serviceName productFamily : String)
    (plan : CatalogEntry) : Option (List Product) :=
  match plan.children with
  | none => some []
  | some ds => optFlatM (deploymentProducts digest nowISO serviceName plan.name productFamily) ds

/- ibmCatalog.ts `parseProducts` / `parseIaaSProducts` (they differ only in
the `productFamily` constant, here a parameter): group nodes recurse, others
iterate plan → deployment → pricingChildren. -/
mutual

def parseProductsList (digest : String → String) (nowISO productFamily : String) :
    List CatalogEntry → Option (List Product)
  | [] => some []
  | s :: rest =>
      match parseProductsOne digest nowISO productFamily s,
            parseProductsList digest nowISO productFamily rest with
      | some xs, some ys => some (xs ++ ys)
      | _, _ => none

def parseProductsOne (digest : String → String) (nowISO productFamily : String) :
    CatalogEntry → Option (List Product)
  | .mk _ _ n g cs _ =>
      match cs with
      | none => some []
      | some children =>
          if g then parseProductsList digest nowISO productFamily children
          else optFlatM (planProducts digest nowISO n productFamily) children

end

/-! ## ibmCatalog.ts — getCatalogEntries pagination -/

/-- The catalog list endpoint, modelled as reporting one fixed `count` total
(the `count` field of every page) and a page of resources per offset. -/
structure CatalogServer (α : Type) where
  count : Option Nat
  resourcesAt : Nat → List α

/-- The offsets requested by `getCatalogEntries`' while-loop for a truthy
total `c`: each iteration requests `offset`, then continues exactly when
`offset > c` is false (the loop adds the fixed `limit = 200` to the offset
regardless of how many resources the page returned). -/
def gceRequests (c : Nat) (offset : Nat) : List Nat :=
  offset :: (if h : offset > c then [] else gceRequests c (offset + 200))
  termination_by c + 1 - offset
  decreasing_by omega

/-- All offsets requested by `getCatalogEntries`: a missing (`undefined`) or
zero `count` is falsy, so `next` is cleared after the first page. -/
def gceOffsets (count : Option Nat) : List Nat :=
  match count with
  | none => [0]
  | some c => if c = 0 then [0] else gceRequests c 0

/-- The `servicesArray` accumulated by `getCatalogEntries` (appending an empty
page is a no-op, so the `resources?.length` guard is immaterial). -/
def getCatalogEntries (srv : CatalogServer α) : List α :=
  (gceOffsets srv.count).flatMap srv.resourcesAt

/-- The pagination decision of ibmCloud.ts `queryCatalogItems`: a `next`
continuation is returned only when `count`, `offset` and `resource_count` are
all numbers and `offset + resourceCount < count`. -/
def queryHasNext (count offset resourceCount : Option Nat) : Bool :=
  match count, offset, resourceCount with
  | some c, some o, some r => decide (o + r < c)
  | _, _, _ => false

/-- The offset passed to the recursive call when `queryHasNext` holds. -/
def queryNextOffset (offset resourceCount : Nat) : Nat := offset + resourceCount

/-! ## ibmKubernetes.ts / ibmInstances.ts — downloadAll retry loop -/

/-- Outcome of one axios attempt in `downloadAll`: a response, or an error
whose `response.status` is the given status (`none` when `err.response` is
undefined, in which case reading `.status` in the catch block itself throws a
TypeError). -/
inductive AttemptResult (α : Type) where
  | success (resp : α)
  | fail (status : Option Nat)

/-- How `downloadAll` can terminate abnormally: rethrowing a non-429 error, or
the TypeError raised by `err.response.status` when `err.response` is
undefined. -/
inductive DownloadError where
  | rethrown (status : Nat)
  | typeError
  deriving Repr, DecidableEq

/-- ibmKubernetes.ts / ibmInstances.ts `MAX_RETRIES`. -/
def MAX_RETRIES : Nat := 3

/-- ibmKubernetes.ts / ibmInstances.ts `RETRY_DELAY_MS`. -/
def RETRY_DELAY_MS : Nat := 30000

/-- The do/while retry loop of `downloadAll`; `attempt n` is the outcome of
the (n+1)-th axios call, `attempts` the count already made, `sleeps` the
backoff sleeps performed so far.  On success the loop exits with the response;
a 429 sleeps 30s and retries while `attempts < MAX_RETRIES`; any other error
propagates.  Returns (resp, attempts made, sleeps). -/
def downloadLoop (attempt : Nat → AttemptResult α) (attempts : Nat) (sleeps : List Nat) :
    Except DownloadError (Option α × Nat × List Nat) :=
  match attempt attempts with
  | .success x => .ok (some x, attempts + 1, sleeps)
  | .fail none => .error .typeError
  | .fail (some s) =>
      if s = 429 then
        if h : attempts + 1 < MAX_RETRIES then
          downloadLoop attempt (attempts + 1) (sleeps ++ [RETRY_DELAY_MS])
        else .ok (none, attempts + 1, sleeps ++ [RETRY_DELAY_MS])
      else .error (.rethrown s)
  termination_by MAX_RETRIES - attempts
  decreasing_by simp [MAX_RETRIES] at *; omega

/-- `downloadAll`'s retry phase (`resp = null; attempts = 0` initially). -/
def downloadAll (attempt : Nat → AttemptResult α) :
    Except DownloadError (Option α × Nat × List Nat) :=
  downloadLoop attempt 0 []

/-! ## db/upsert.ts — batched upsert (modelled from the spec) -/

/-- Modelled from the spec: the batch size bound of `upsertProducts`
(db/upsert.ts is not among the sources; spec §4.5: "bounded by a fixed size
(on the order of 1,000)"). -/
def BATCH_SIZE : Nat := 1000

/-- Modelled from the spec: the accumulation loop of `upsertProducts`
(db/upsert.ts is not among the sources).  Spec §4.5: before adding a product,
if the batch already contains that product's hash, or the batch has reached
its size bound, the accumulated batch is flushed and cleared first; a trailing
partial batch is flushed after the input is exhausted.  Returns the flushed
batches in order. -/
def upsertBatches (hash : α → String) (batch : List α) : List α → List (List α)
  | [] => if batch.isEmpty then [] else [batch]
  | p :: rest =>
      if (batch.map hash).contains (hash p) || batch.length ≥ BATCH_SIZE then
        batch :: upsertBatches hash [p] rest
      else
        upsertBatches hash (batch ++ [p]) rest

/-- Modelled from the spec: `upsertProducts` starts with an empty batch. -/
def upsertProductBatches (hash : α → String) (products : List α) : List (List α) :=
  upsertBatches hash [] products

/-! ## ibmCloud.ts — queryCatalogItems result shape and cleanAndFormatData -/

/-- The pricing metadata produced by ibmCloud.ts `extractPricingInfo` (its
`PricingMetaData`): like the catalog one but carrying `starting_price`. -/
structure CloudPricingMeta where
  type : String := ""
  region : String := ""
  startingPrice : Option GCPrice := none
  amounts : Option AmountsRecord := none
  metrics : Option MetricsRecord := none
  deriving Repr, DecidableEq

/-- A price row of ibmCloud.ts `cleanAndFormatData` (different field set from
the db `Price`). -/
structure CloudPrice where
  startPrice : Nat
  startQuantityTier : Nat
  priceHash : String
  purchaseOption : String
  code : String
  price : Nat
  quantityTier : Nat
  tierModel : Option String
  unit : String
  effectiveDateStart : String
  effectiveDateEnd : Option String
  deriving Repr, DecidableEq

/-- A product assembled by ibmCloud.ts `cleanAndFormatData`. -/
structure CloudProduct where
  productHash : String
  sku : String
  vendorName : String
  region : String
  service : String
  productFamily : String
  attributes : List (String × Option String)
  prices : List CloudPrice
  deriving Repr, DecidableEq

/-- `Object.entries(service)` / `(plan)` / `(deployment)` nesting of the
`CatalogMapping` values fed to `cleanAndFormatData`. -/
abbrev CloudDeployment := List (String × List CloudPricingMeta)

abbrev CloudPlan := List (String × List CloudDeployment)

abbrev CloudServiceMap := List (String × List CloudPlan)

/-- One price row of `cleanAndFormatData` for one cost point. -/
def cloudPriceRow (nowISO : String) (sp : GCPrice) (code : String) (md : UsageMetrics)
    (cost : GCPrice) : CloudPrice :=
  { startPrice := sp.price
    startQuantityTier := sp.quantity_tier
    priceHash := "USA-USD-" ++ toString cost.quantity_tier
    purchaseOption := ""
    code := code
    price := cost.price
    quantityTier := cost.quantity_tier
    tierModel := md.tierModel
    unit := md.chargeUnit.getD ""
    effectiveDateStart := md.effectiveFrom.getD nowISO
    effectiveDateEnd := md.effectiveUntil }

/-- The per-deployment-entry body of `cleanAndFormatData`: take `pricing[0]`,
skip when it has no `metrics`, destructure `startingPrice` (throws when
undefined), read `amounts['USA-USD']` (throws when the bucket or the `amounts`
record is missing) and `metrics[code]` (throws when missing), and emit one
product when any prices result. -/
def cloudProductsOfPricing (nowISO serviceName planName : String)
    (pricing : List CloudPricingMeta) : Option (List CloudProduct) :=
  match pricing.head? with
  | none => some []
  | some meta =>
      match meta.metrics with
      | none => some []
      | some ms =>
          match meta.startingPrice with
          | none => none
          | some sp =>
              match meta.amounts with
              | none => none
              | some am =>
                  match List.lookup "USA-USD" am with
                  | none => none
                  | some bucket =>
                      match (optMapM (fun pc =>
                          (List.lookup pc.1 ms).map (fun md =>
                            pc.2.map (cloudPriceRow nowISO sp pc.1 md))) bucket).map List.flatten with
                      | none => none
                      | some prices =>
                          if prices.length != 0 then
                            some [{ productHash := serviceName ++ "-" ++ planName ++ "-"
                                      ++ meta.region ++ "-USA-USD"
                                    sku := planName
                                    vendorName := "ibm"
                                    region := meta.region
                                    service := serviceName
                                    productFamily := "service"
                                    attributes := [("type", some meta.type)]
                                    prices := prices }]
                          else some []

/-- The deployment loop of `cleanAndFormatData`. -/
def cloudDeploymentProducts (nowISO serviceName planName : String)
    (deployment : CloudDeployment) : Option (List CloudProduct) :=
  optFlatM (fun entry => cloudProductsOfPricing nowISO serviceName planName entry.2) deployment

/-- The plan loop of `cleanAndFormatData` (`!deployments?.length` skips the
entry). -/
def cloudPlanProducts (nowISO serviceName : String) (plan : CloudPlan) :
    Option (List CloudProduct) :=
  optFlatM
    (fun entry =>
      optFlatM (cloudDeploymentProducts nowISO serviceName entry.1) entry.2)
    plan

/-- ibmCloud.ts `cleanAndFormatData` (`!plans?.length` skips the entry). -/
def cleanAndFormatData (nowISO : String) (services : List CloudServiceMap) :
    Option (List CloudProduct) :=
  optFlatM
    (fun service =>
      optFlatM
        (fun entry => optFlatM (cloudPlanProducts nowISO entry.1) entry.2)
        service)
    services

/-! ## Helper lemmas -/

theorem chunk8_flatten (l : List α) : (chunk8 l).flatten = l := by
  match l with
  | [] => rw [chunk8.eq_def]; rfl
  | a :: rest =>
      rw [chunk8.eq_def]
      simp only [List.flatten_cons]
      rw [chunk8_flatten ((a :: rest).drop 8), List.take_append_drop]
  termination_by l.length
  decreasing_by simp; omega

theorem chunk8_mem (l : List α) (c : List α) (hc : c ∈ chunk8 l) :
    c.length ≤ 8 ∧ c ≠ [] := by
  match l with
  | [] => rw [chunk8.eq_def] at hc; simp at hc
  | a :: rest =>
      rw [chunk8.eq_def] at hc
      rcases List.mem_cons.mp hc with h | h
      · subst h
        refine ⟨by simp [List.length_take], by simp⟩
      · exact chunk8_mem _ c h
  termination_by l.length
  decreasing_by simp; omega

theorem optMapM_mem {f : α → Option β} :
    ∀ {l : List α} {out : List β}, optMapM f l = some out →
      ∀ b ∈ out, ∃ a ∈ l, f a = some b := by
  intro l
  induction l with
  | nil => intro out h b hb; simp [optMapM] at h; subst h; simp at hb
  | cons a rest ih =>
      intro out h b hb
      simp only [optMapM] at h
      cases hfa : f a with
      | none => rw [hfa] at h; simp at h
      | some c =>
          cases hrest : optMapM f rest with
          | none => rw [hfa, hrest] at h; simp at h
          | some cs =>
              rw [hfa, hrest] at h
              cases h
              rcases List.mem_cons.mp hb with hb | hb
              · exact ⟨a, List.mem_cons_self a rest, hb ▸ hfa⟩
              · rcases ih hrest b hb with ⟨x, hx, hfx⟩
                exact ⟨x, List.mem_cons_of_mem a hx, hfx⟩

theorem walkChildren_eq_map (incl : Bool) (fetch : String → FetchResult) (fp : Bool) :
    ∀ cs : List CatalogEntry, walkChildren incl fetch fp cs = cs.map (walkEntry incl fetch fp)
  | [] => rfl
  | c :: cs => by
      rw [walkChildren, List.map_cons, walkChildren_eq_map incl fetch fp cs]

theorem upsertBatches_flatten (hash : α → String) :
    ∀ (input batch : List α), (upsertBatches hash batch input).flatten = batch ++ input := by
  intro input
  induction input with
  | nil =>
      intro batch
      cases batch with
      | nil => simp [upsertBatches]
      | cons x xs => simp [upsertBatches]
  | cons p rest ih =>
      intro batch
      rw [upsertBatches]
      by_cases hcond : ((batch.map hash).contains (hash p) || decide (batch.length ≥ BATCH_SIZE)) = true
      · rw [if_pos hcond, List.flatten_cons, ih [p]]
        simp
      · rw [if_neg hcond, ih (batch ++ [p])]
        simp

theorem upsertBatches_nodup (hash : α → String) :
    ∀ (input batch : List α), (batch.map hash).Nodup →
      ∀ b ∈ upsertBatches hash batch input, (b.map hash).Nodup := by
  intro input
  induction input with
  | nil =>
      intro batch hnd b hb
      cases batch with
      | nil => simp [upsertBatches] at hb
      | cons x xs =>
          simp [upsertBatches] at hb
          subst hb
          exact hnd
  | cons p rest ih =>
      intro batch hnd b hb
      rw [upsertBatches] at hb
      by_cases hcond : ((batch.map hash).contains (hash p) || decide (batch.length ≥ BATCH_SIZE)) = true
      · rw [if_pos hcond] at hb
        rcases List.mem_cons.mp hb with hb | hb
        · subst hb; exact hnd
        · exact ih [p] (by simp) b hb
      · rw [if_neg hcond] at hb
        have hni : hash p ∉ List.map hash batch := by
          intro hmem
          apply hcond
          have hc : (List.map hash batch).contains (hash p) = true := List.elem_iff.mpr hmem
          rw [Bool.or_eq_true]
          exact Or.inl hc
        refine ih (batch ++ [p]) ?_ b hb
        simp only [List.map_append, List.map_cons, List.map_nil]
        refine List.Nodup.append hnd (List.nodup_singleton _) ?_
        rw [List.disjoint_singleton]
        exact hni

theorem upsertBatches_len (hash : α → String) :
    ∀ (input batch : List α), batch.length ≤ BATCH_SIZE →
      ∀ b ∈ upsertBatches hash batch input, b.length ≤ BATCH_SIZE := by
  intro input
  induction input with
  | nil =>
      intro batch hlen b hb
      cases batch with
      | nil => simp [upsertBatches] at hb
      | cons x xs =>
          simp [upsertBatches] at hb
          subst hb
          exact hlen
  | cons p rest ih =>
      intro batch hlen b hb
      rw [upsertBatches] at hb
      by_cases hcond : ((batch.map hash).contains (hash p) || decide (batch.length ≥ BATCH_SIZE)) = true
      · rw [if_pos hcond] at hb
        rcases List.mem_cons.mp hb with hb | hb
        · subst hb; exact hlen
        · exact ih [p] (by simp [BATCH_SIZE]) b hb
      · rw [if_neg hcond] at hb
        simp only [Bool.or_eq_true, not_or, ge_iff_le, decide_eq_true_eq, not_le] at hcond
        obtain ⟨_, hlt⟩ := hcond
        refine ih (batch ++ [p]) ?_ b hb
        simp only [List.length_append, List.length_cons, List.length_nil]
        omega

/-! ## Claim C9 -/

/-- C9: in the batching loop of `upsertProducts` (modelled from spec §4.5), a
batch is flushed before adding a product whose `productHash` it already
contains or once it holds `BATCH_SIZE` rows, and the trailing partial batch is
flushed at the end — therefore every flushed bulk statement carries pairwise
distinct hashes, stays within the size bound, and the flushed batches
partition the input in order. -/
theorem upsertProducts_batches_sound (hash : α → String) (products : List α) :
    (∀ b ∈ upsertProductBatches hash products, (b.map hash).Nodup ∧ b.length ≤ BATCH_SIZE) ∧
    (upsertProductBatches hash products).flatten = products := by
  refine ⟨fun b hb => ⟨?_, ?_⟩, ?_⟩
  · exact upsertBatches_nodup hash products [] (by simp) b hb
  · exact upsertBatches_len hash products [] (by simp [BATCH_SIZE]) b hb
  · simpa using upsertBatches_flatten hash products []

/-- C9 witness: on the input `["a", "b", "a"]` (hashes themselves), the
duplicate hash forces the flush `[["a", "b"], ["a"]]`; both batches are
duplicate-free and they concatenate back to the input. -/
theorem upsertProducts_batches_sound_witness :
    ((["a", "b"].map id).Nodup ∧ ["a", "b"].length ≤ BATCH_SIZE) ∧
    (upsertProductBatches id ["a", "b", "a"]).flatten = ["a", "b", "a"] :=
  ⟨(upsertProducts_batches_sound id ["a", "b", "a"]).1 ["a", "b"] (by decide),
   (upsertProducts_batches_sound id ["a", "b", "a"]).2⟩

/-! ## Claim C10 -/

theorem loadAll_group_foldl (digest : String → String) (gph : Product → Price → String)
    (group : List IbmProductJson) :
    ∀ acc : List Product,
      group.foldl
        (fun acc pj =>
          if !isDeprecated pj then acc ++ [parseIbmProduct digest gph pj] else acc) acc
      = acc ++ (group.filter (fun pj => !isDeprecated pj)).map (parseIbmProduct digest gph) := by
  induction group with
  | nil => intro acc; simp
  | cons pj rest ih =>
      intro acc
      by_cases hd : isDeprecated pj = true
      · simp only [List.foldl_cons, List.filter_cons, hd, Bool.not_true]
        rw [if_neg (by simp)]
        simpa using ih acc
      · rw [Bool.not_eq_true] at hd
        simp only [List.foldl_cons, List.filter_cons, hd, Bool.not_false, if_true]
        rw [ih (acc ++ [parseIbmProduct digest gph pj])]
        simp

theorem loadAll_outer_foldl (digest : String → String) (gph : Product → Price → String)
    (json : List (String × List IbmProductJson)) :
    ∀ acc : List Product,
      json.foldl
        (fun products group =>
          group.2.foldl
            (fun acc pj =>
              if !isDeprecated pj then acc ++ [parseIbmProduct digest gph pj] else acc)
            products) acc
      = acc ++ ((json.map Prod.snd).flatten.filter (fun pj => !isDeprecated pj)).map
          (parseIbmProduct digest gph) := by
  induction json with
  | nil => intro acc; simp
  | cons g rest ih =>
      intro acc
      rw [List.foldl_cons, loadAll_group_foldl digest gph g.2 acc, ih]
      simp [List.filter_append]

/-- C10: `loadAll` turns the downloaded product-group JSON into exactly one
product per non-deprecated entry and none for deprecated ones — it equals
filtering out the entries with a truthy `deprecated` field and mapping
`parseIbmProduct`; and `deprecated` is truthy precisely when it is a nonempty
string. -/
theorem loadAll_skips_deprecated (digest : String → String) (gph : Product → Price → String)
    (json : List (String × List IbmProductJson)) :
    loadAllProducts digest gph json
      = ((json.map Prod.snd).flatten.filter (fun pj => !isDeprecated pj)).map
          (parseIbmProduct digest gph)
    ∧ ∀ pj : IbmProductJson, isDeprecated pj = true ↔ ∃ s, pj.deprecated = some s ∧ s ≠ "" := by
  constructor
  · simpa [loadAllProducts] using loadAll_outer_foldl digest gph json []
  · intro pj
    cases hd : pj.deprecated with
    | none => simp [isDeprecated, truthyS, hd]
    | some s => simp [isDeprecated, truthyS, hd]

/-! ## Claim C4 -/

/-- A pricing leaf whose single metric has no usable amounts: parsed, it has a
metrics record but an empty amounts record — no `USA-USD` bucket. -/
def geoMissingLeaf : PricingGet :=
  { type := "public", deployment_location := "us-south",
    metrics := some [{ metric_id := some "m1" }] }

/-- The `PricingMetaData` that `parsePricingJson` produces for
`geoMissingLeaf`. -/
def geoMissingMeta : PricingMetaData :=
  { type := "public", region := "us-south", amounts := some [],
    metrics := some [("m1", {})] }

/-- C4: on a leaf with metrics but no `(USA, USD)` amount bucket, the src/src
`getPrices` evaluates `Object.entries(amounts[geoKey])` with the bucket
`undefined` and throws a TypeError (modelled `none`), while the part_003
variant's `!amounts[geoKey]` guard returns the empty price list as the spec
requires. -/
theorem getPrices_missing_geo_bucket :
    parsePricingJson geoMissingLeaf = some geoMissingMeta ∧
    getPricesCatalog "2023-01-01" geoMissingMeta "USA" "USD" = none ∧
    getPricesV2 "2023-01-01" geoMissingMeta "USA" "USD" = some [] :=
  ⟨rfl, rfl, rfl⟩

/-! ## Claim C1 -/

/-- C1 (amended): for every digest, `generateProductHash` assigns equal hashes
to any two products agreeing on `(vendorName, region, sku)`, whatever their
attributes, prices, service, productFamily or other fields, and deterministic
recomputation is immediate since it is a pure function; in particular two
Kubernetes product JSONs agreeing on the identity fields (plan_id, country,
currency, flavor, operating_system, region) receive the same `productHash`
from `parseIbmProduct` regardless of their tiers, attribute fields, timestamps
or the price-hash function in use.  (ibmCloud.ts's `cleanAndFormatData` is the
exception recorded by the counterexample.) -/
theorem productHash_identity_only :
    (∀ (digest : String → String) (p q : Product),
        p.vendorName = q.vendorName → p.region = q.region → p.sku = q.sku →
        generateProductHash digest p = generateProductHash digest q) ∧
    (∀ (digest : String → String) (gph gph' : Product → Price → String)
        (j1 j2 : IbmProductJson),
        j1.plan_id = j2.plan_id → j1.country = j2.country → j1.currency = j2.currency →
        j1.flavor = j2.flavor → j1.operating_system = j2.operating_system →
        j1.region = j2.region →
        (parseIbmProduct digest gph j1).productHash
          = (parseIbmProduct digest gph' j2).productHash) := by
  constructor
  · intro digest p q hv hr hs
    simp only [generateProductHash, hv, hr, hs]
  · intro digest gph gph' j1 j2 h1 h2 h3 h4 h5 h6
    simp only [parseIbmProduct, generateProductHash, h1, h2, h3, h4, h5, h6]

/-- Two Kubernetes product JSONs with identical identity fields but different
provider, tiers, deprecation and effective dates. -/
def hashJson1 : IbmProductJson :=
  { plan_id := "plan", region := "us-south", flavor := "b3c.4x16",
    operating_system := "UBUNTU", unit := "hour", price := "1", country := "USA",
    currency := "USD", tiers := [{ price := 1, instance_hours := some 100 }],
    provider := some "classic" }

def hashJson2 : IbmProductJson :=
  { hashJson1 with
    provider := some "vpc", tiers := [], min_quantity := some 5,
    effective_from := some "2020-01-01", billing_type := some "hourly" }

/-- C1 witness: `parseIbmProduct` (with the identity digest and two different
price-hash functions) gives `hashJson1` and `hashJson2` the same productHash. -/
theorem productHash_identity_only_witness :
    (parseIbmProduct id (fun _ _ => "") hashJson1).productHash
      = (parseIbmProduct id (fun _ _ => "x") hashJson2).productHash :=
  productHash_identity_only.2 id (fun _ _ => "") (fun _ _ => "x") hashJson1 hashJson2
    rfl rfl rfl rfl rfl rfl

/-- A cloud pricing leaf with one metric and a USA-USD bucket. -/
def cloudMeta : CloudPricingMeta :=
  { type := "public", region := "us-south", startingPrice := some { price := 0, quantity_tier := 0 },
    amounts := some [("USA-USD", [("m1", [{ price := 5, quantity_tier := 10 }])])],
    metrics := some [("m1", {})] }

/-- One-service input to `cleanAndFormatData` with the given service name. -/
def cloudInput (svc : String) : List CloudServiceMap :=
  [[(svc, [[("plan1", [[("d1", [cloudMeta])]])]])]]

/-- C1 counterexample: ibmCloud.ts `cleanAndFormatData` computes
`productHash = serviceName-planName-region-USA-USD`.  Two runs whose products
agree on vendorName ("ibm"), region ("us-south") and sku ("plan1") — differing
only in the service name — receive different productHashes, so the hash is not
a function of the identity triple alone. -/
theorem cleanAndFormatData_hash_uses_service :
    (cleanAndFormatData "T" (cloudInput "svcA")).map
        (List.map (fun p => (p.vendorName, p.region, p.sku)))
      = (cleanAndFormatData "T" (cloudInput "svcB")).map
          (List.map (fun p => (p.vendorName, p.region, p.sku))) ∧
    (cleanAndFormatData "T" (cloudInput "svcA")).map (List.map CloudProduct.productHash)
      = some ["svcA-plan1-us-south-USA-USD"] ∧
    (cleanAndFormatData "T" (cloudInput "svcB")).map (List.map CloudProduct.productHash)
      = some ["svcB-plan1-us-south-USA-USD"] ∧
    ("svcA-plan1-us-south-USA-USD" : String) ≠ "svcB-plan1-us-south-USA-USD" :=
  ⟨rfl, rfl, rfl, by decide⟩

/-! ## Claim C3 -/

/-- Following the spec's words, for comparison with the code's substring
match: a boundary "that is a run of the digit 9 of the source's designated
length" — the source designates nine 9s. -/
def specDesignatedNineRun (n : Nat) : Bool := n == 999999999

/-- C3 (amended): in ibmKubernetes.ts, when `max_quantity` is unset a tier
boundary taken from `instance_hours` becomes `"Inf"` exactly when its decimal
rendering contains the digit run `999999999` as a substring (not only when it
is the designated run), and passes through as its decimal string otherwise; a
truthy `max_quantity` short-circuits with no `"Inf"` substitution at all, and
the catalog scrapers' price rows always render `quantity_tier` verbatim with
no `"Inf"` substitution. -/
theorem endUsageAmount_inf_substitution :
    (∀ (pj : IbmProductJson) (tj : IbmTierJson) (v : Nat),
        truthyN pj.max_quantity = false → tj.instance_hours = some v → v ≠ 0 →
        strContains (toString v) lastThresholdAmountPattern = true →
        getEndUsageAmount pj tj = "Inf") ∧
    (∀ (pj : IbmProductJson) (tj : IbmTierJson) (v : Nat),
        truthyN pj.max_quantity = false → tj.instance_hours = some v → v ≠ 0 →
        strContains (toString v) lastThresholdAmountPattern = false →
        getEndUsageAmount pj tj = toString v) ∧
    (∀ (pj : IbmProductJson) (tj : IbmTierJson) (m : Nat),
        pj.max_quantity = some m → m ≠ 0 → getEndUsageAmount pj tj = toString m) ∧
    (∀ (nowISO : String) (md : UsageMetrics) (pn c u : String) (prev : Option GCPrice)
        (cost : GCPrice),
        (catalogPriceRowV2 nowISO md pn c u prev cost).endUsageAmount
            = some (toString cost.quantity_tier) ∧
        (catalogPriceRow nowISO md pn c u cost).endUsageAmount
            = some (toString cost.quantity_tier)) := by
  refine ⟨?_, ?_, ?_, ?_⟩
  · intro pj tj v hmax hih hv hsub
    rw [getEndUsageAmount, if_neg (by simp [hmax]), hih]
    simp [truthyN, hv, hsub]
  · intro pj tj v hmax hih hv hsub
    rw [getEndUsageAmount, if_neg (by simp [hmax]), hih]
    simp [truthyN, hv, hsub]
  · intro pj tj m hm hmz
    rw [getEndUsageAmount, if_pos (by simp [truthyN, hm, hmz]), hm]
    rfl
  · intro nowISO md pn c u prev cost
    exact ⟨rfl, rfl⟩

/-- A Kubernetes product JSON with neither `min_quantity` nor `max_quantity`
and no tiers of its own. -/
def kubeJsonPlain : IbmProductJson :=
  { plan_id := "p", region := "r", flavor := "f", operating_system := "o",
    unit := "u", price := "", country := "USA", currency := "USD", tiers := [] }

/-- C3 witness: with no `max_quantity`, the boundary 1999999999 (contains the
run) becomes "Inf" and the boundary 500 passes through as "500". -/
theorem endUsageAmount_inf_substitution_witness :
    getEndUsageAmount kubeJsonPlain { price := 1, instance_hours := some 1999999999 } = "Inf" ∧
    getEndUsageAmount kubeJsonPlain { price := 1, instance_hours := some 500 }
      = toString (500 : Nat) :=
  ⟨endUsageAmount_inf_substitution.1 _ _ 1999999999 rfl rfl (by decide) rfl,
   endUsageAmount_inf_substitution.2.1 _ _ 500 rfl rfl (by decide) rfl⟩

/-- C3 counterexample: the boundary 9999999990 is not the designated run of
nine 9s — by the claim it should pass through unchanged as "9999999990" — yet
`getEndUsageAmount` renders it "Inf" because the regex `/999999999/` matches a
substring. -/
theorem endUsageAmount_substring_counterexample :
    specDesignatedNineRun 9999999990 = false ∧
    getEndUsageAmount kubeJsonPlain { price := 5, instance_hours := some 9999999990 } = "Inf" ∧
    toString (9999999990 : Nat) ≠ "Inf" :=
  ⟨rfl, rfl, by decide⟩

/-! ## Claim C2 -/

/-- The chaining property of one per-metric price sequence: the first row's
`startUsageAmount` is `expected` and every later row's `startUsageAmount`
equals the previous row's `endUsageAmount`. -/
def chainFrom (expected : String) : List Price → Bool
  | [] => true
  | p :: rest =>
      p.startUsageAmount == some expected &&
        (match p.endUsageAmount with
         | some e => chainFrom e rest
         | none => false)

theorem catalogTierLoop_chain (nowISO : String) (md : UsageMetrics) (pn c u : String) :
    ∀ (costs : List GCPrice) (prev : Option GCPrice),
      chainFrom
        (if truthyN (prev.map GCPrice.quantity_tier)
         then toString ((prev.map GCPrice.quantity_tier).getD 0) else "0")
        (catalogTierLoop nowISO md pn c u prev costs) = true := by
  intro costs
  induction costs with
  | nil => intro prev; rfl
  | cons cost rest ih =>
      intro prev
      rw [catalogTierLoop, chainFrom]
      have hstart : (catalogPriceRowV2 nowISO md pn c u prev cost).startUsageAmount
          == some (if truthyN (prev.map GCPrice.quantity_tier)
                   then toString ((prev.map GCPrice.quantity_tier).getD 0) else "0") := by
        simp [catalogPriceRowV2]
      rw [hstart]
      have hend : (catalogPriceRowV2 nowISO md pn c u prev cost).endUsageAmount
          = some (toString cost.quantity_tier) := rfl
      rw [hend, Bool.true_and]
      have := ih (some cost)
      by_cases hq : cost.quantity_tier = 0
      · simpa [truthyN, hq] using this
      · simpa [truthyN, hq] using this

/-- C2 (amended): the output of the part_003 `getPrices` is a concatenation of
per-metric sequences, each of which is chained: its first row's
`startUsageAmount` is `"0"` and every later row's `startUsageAmount` equals
the previous row's `endUsageAmount` (its quantityTier rendering). -/
theorem getPrices_start_chained (nowISO : String) (pricing : PricingMetaData)
    (country currency : String) (ms : MetricsRecord) (am : AmountsRecord)
    (bucket : List (String × List GCPrice)) (ps : List Price)
    (hm : pricing.metrics = some ms) (ha : pricing.amounts = some am)
    (hb : List.lookup (country ++ "-" ++ currency) am = some bucket)
    (hp : getPricesV2 nowISO pricing country currency = some ps) :
    ∃ seqs : List (List Price), ps = seqs.flatten ∧ ∀ s ∈ seqs, chainFrom "0" s = true := by
  obtain ⟨t, r, amo, meo⟩ := pricing
  simp only at hm ha
  subst hm ha
  rw [getPricesV2] at hp
  simp only at hp
  rw [hb] at hp
  have hp2 : (optMapM (fun pc =>
      (List.lookup pc.1 ms).map (fun md =>
        catalogTierLoop nowISO md pc.1 country currency none pc.2)) bucket).map List.flatten
      = some ps := hp
  clear hp
  cases hseqs : optMapM (fun pc =>
      (List.lookup pc.1 ms).map (fun md =>
        catalogTierLoop nowISO md pc.1 country currency none pc.2)) bucket with
  | none => rw [hseqs] at hp2; simp at hp2
  | some seqs =>
      rw [hseqs] at hp2
      have hps : seqs.flatten = ps := Option.some.inj hp2
      refine ⟨seqs, hps.symm, ?_⟩
      intro s hs
      rcases optMapM_mem hseqs s hs with ⟨pc, _, hf⟩
      cases hl : List.lookup pc.1 ms with
      | none => rw [hl] at hf; simp at hf
      | some md =>
          rw [hl] at hf
          have hfs : catalogTierLoop nowISO md pc.1 country currency none pc.2 = s :=
            Option.some.inj hf
          subst hfs
          simpa using catalogTierLoop_chain nowISO md pc.1 country currency pc.2 none

/-- A pricing leaf metadata with one metric and two tier points in the USA-USD
bucket. -/
def chainMeta : PricingMetaData :=
  { type := "public", region := "us-south",
    amounts := some [("USA-USD", [("m1", [{ price := 1, quantity_tier := 100 },
                                          { price := 2, quantity_tier := 999 }])])],
    metrics := some [("m1", {})] }

/-- C2 witness: on `chainMeta`, the part_003 `getPrices` emits one chained
sequence (start "0" → end "100", start "100" → end "999"). -/
theorem getPrices_start_chained_witness :
    ∃ seqs : List (List Price),
      (getPricesV2 "T" chainMeta "USA" "USD").getD [] = seqs.flatten ∧
        ∀ s ∈ seqs, chainFrom "0" s = true :=
  getPrices_start_chained "T" chainMeta "USA" "USD"
    [("m1", {})]
    [("USA-USD", [("m1", [{ price := 1, quantity_tier := 100 },
                          { price := 2, quantity_tier := 999 }])])]
    [("m1", [{ price := 1, quantity_tier := 100 }, { price := 2, quantity_tier := 999 }])]
    ((getPricesV2 "T" chainMeta "USA" "USD").getD []) rfl rfl rfl rfl

/-- A pricing leaf metadata with one metric and one tier point. -/
def oneTierMeta : PricingMetaData :=
  { type := "t", region := "us-south",
    amounts := some [("USA-USD", [("m1", [{ price := 5, quantity_tier := 100 }])])],
    metrics := some [("m1", {})] }

/-- C2 counterexample: the src/src `getPrices` (a cited source of the claim)
never assigns `startUsageAmount` — the first emitted price of the sequence
carries no `startUsageAmount` at all, not the string "0". -/
theorem getPrices_no_startUsageAmount :
    (getPricesCatalog "T" oneTierMeta "USA" "USD").map (List.map Price.startUsageAmount)
      = some [none] ∧ (none : Option String) ≠ some "0" :=
  ⟨rfl, by decide⟩

/-! ## Claim C6 -/

theorem gceRequests_length (c : Nat) (offset : Nat) (h : offset ≤ c) :
    (gceRequests c offset).length = (c - offset) / 200 + 2 := by
  rw [gceRequests, dif_neg (by omega)]
  by_cases h2 : offset + 200 ≤ c
  · simp only [List.length_cons]
    rw [gceRequests_length c (offset + 200) h2]
    omega
  · rw [gceRequests, dif_pos (by omega)]
    have hlt : c - offset < 200 := by omega
    simp [Nat.div_eq_of_lt hlt]
  termination_by c + 1 - offset
  decreasing_by omega

/-- C6 (amended): `getCatalogEntries` stops after the first page when the
server's `count` is missing or zero (falsy), and for a positive total `c` it
keeps requesting offsets 0, 200, 400, … while the previous offset is at most
`c` — issuing `c / 200 + 2` requests in total (bounded, so the loop
terminates) — rather than stopping as soon as `offset + returnedCount ≥
count`; ibmCloud.ts's `queryCatalogItems` returns a `next` continuation only
when `count`, `offset` and `resource_count` are all numbers and
`offset + resource_count < count`. -/
theorem getCatalogEntries_pagination :
    gceOffsets none = [0] ∧
    gceOffsets (some 0) = [0] ∧
    (∀ c : Nat, c ≠ 0 → (gceOffsets (some c)).length = c / 200 + 2) ∧
    (∀ co o r : Option Nat, co = none ∨ o = none ∨ r = none → queryHasNext co o r = false) ∧
    (∀ c o r : Nat, queryHasNext (some c) (some o) (some r) = decide (o + r < c)) := by
  refine ⟨rfl, rfl, ?_, ?_, fun c o r => rfl⟩
  · intro c hc
    rw [gceOffsets, if_neg hc, gceRequests_length c 0 (Nat.zero_le c)]
    omega
  · intro co o r h
    rcases h with h | h | h <;> subst h
    · rfl
    · cases co <;> rfl
    · cases co <;> cases o <;> rfl

/-- C6 witness: a reported total of 500 yields 500/200 + 2 = 4 requests, and a
missing `count` in `queryCatalogItems` yields no `next` continuation. -/
theorem getCatalogEntries_pagination_witness :
    (gceOffsets (some 500)).length = 500 / 200 + 2 ∧
    queryHasNext none (some 0) (some 200) = false :=
  ⟨getCatalogEntries_pagination.2.2.1 500 (by decide),
   getCatalogEntries_pagination.2.2.2.1 none (some 0) (some 200) (Or.inl rfl)⟩

/-- C6 counterexample: with the server reporting `count = 200` (and the first
page returning all 200 resources), the claimed rule "keep requesting while
`offset + returnedCount < totalCount`" stops after the single request at
offset 0, but `getCatalogEntries` requests offsets 0, 200 and 400: its loop
never consults the returned count and continues while `offset ≤ count`. -/
theorem getCatalogEntries_extra_requests :
    gceOffsets (some 200) = [0, 200, 400] ∧ ¬(0 + 200 < 200) ∧
    (gceOffsets (some 200)).length ≠ 1 := by
  have h : gceOffsets (some 200) = [0, 200, 400] := by
    rw [gceOffsets, if_neg (by omega)]
    rw [gceRequests, dif_neg (by omega), gceRequests, dif_neg (by omega),
      gceRequests, dif_pos (by omega)]
  exact ⟨h, by omega, by rw [h]; simp⟩

/-! ## Claim C7 -/

/-- C7 (amended): `downloadAll` retries only on HTTP 429, sleeping 30s per
retry and making at most `MAX_RETRIES = 3` attempts; any non-429 failure is
rethrown immediately after the first attempt; but when all three attempts are
rate-limited the loop simply gives up — it returns with `resp = null` (no
`RateLimited` error is raised; ibmKubernetes.ts later logs a skip and
ibmInstances.ts returns silently). -/
theorem downloadAll_retry_policy :
    (∀ (attempt : Nat → AttemptResult α),
        attempt 0 = .fail (some 429) → attempt 1 = .fail (some 429) →
        attempt 2 = .fail (some 429) →
        downloadAll attempt = .ok (none, 3, [RETRY_DELAY_MS, RETRY_DELAY_MS, RETRY_DELAY_MS])) ∧
    (∀ (attempt : Nat → AttemptResult α) (s : Nat), s ≠ 429 → attempt 0 = .fail (some s) →
        downloadAll attempt = .error (.rethrown s)) ∧
    (∀ (attempt : Nat → AttemptResult α) (x : α), attempt 0 = .success x →
        downloadAll attempt = .ok (some x, 1, [])) ∧
    (∀ (attempt : Nat → AttemptResult α) (x : α),
        attempt 0 = .fail (some 429) → attempt 1 = .success x →
        downloadAll attempt = .ok (some x, 2, [RETRY_DELAY_MS])) := by
  refine ⟨?_, ?_, ?_, ?_⟩
  · intro attempt h0 h1 h2
    have e0 : downloadAll attempt = downloadLoop attempt 1 [RETRY_DELAY_MS] := by
      rw [downloadAll, downloadLoop, h0]
      rfl
    have e1 : downloadLoop attempt 1 [RETRY_DELAY_MS]
        = downloadLoop attempt 2 [RETRY_DELAY_MS, RETRY_DELAY_MS] := by
      rw [downloadLoop, h1]
      rfl
    have e2 : downloadLoop attempt 2 [RETRY_DELAY_MS, RETRY_DELAY_MS]
        = .ok (none, 3, [RETRY_DELAY_MS, RETRY_DELAY_MS, RETRY_DELAY_MS]) := by
      rw [downloadLoop, h2]
      rfl
    exact e0.trans (e1.trans e2)
  · intro attempt s hs h0
    rw [downloadAll, downloadLoop, h0]
    exact if_neg hs
  · intro attempt x h0
    rw [downloadAll, downloadLoop, h0]
  · intro attempt x h0 h1
    have e0 : downloadAll attempt = downloadLoop attempt 1 [RETRY_DELAY_MS] := by
      rw [downloadAll, downloadLoop, h0]
      rfl
    rw [e0, downloadLoop, h1]

/-- C7 witness: three rate-limited attempts end with `resp = null` after three
30s sleeps; a 500 propagates immediately. -/
theorem downloadAll_retry_policy_witness :
    downloadAll (fun _ => (.fail (some 429) : AttemptResult Nat))
      = .ok (none, 3, [RETRY_DELAY_MS, RETRY_DELAY_MS, RETRY_DELAY_MS]) ∧
    downloadAll (fun _ => (.fail (some 500) : AttemptResult Nat))
      = .error (.rethrown 500) :=
  ⟨downloadAll_retry_policy.1 (fun _ => .fail (some 429)) rfl rfl rfl,
   downloadAll_retry_policy.2.1 (fun _ => .fail (some 500)) 500 (by decide) rfl⟩

/-- C7 counterexample: exhausting all three attempts with 429s does NOT make
the call fail with a `RateLimited` error — the loop exits normally with
`resp = null` (an `.ok` outcome, not an `.error`). -/
theorem downloadAll_exhaustion_not_error :
    downloadAll (fun _ => (.fail (some 429) : AttemptResult Nat))
      = .ok (none, 3, [RETRY_DELAY_MS, RETRY_DELAY_MS, RETRY_DELAY_MS]) ∧
    (downloadAll (fun _ => (.fail (some 429) : AttemptResult Nat))).isOk = true := by
  have e0 : downloadAll (fun _ => (.fail (some 429) : AttemptResult Nat))
      = downloadLoop (fun _ => .fail (some 429)) 1 [RETRY_DELAY_MS] := by
    rw [downloadAll, downloadLoop]
    rfl
  have e1 : downloadLoop (fun _ => (.fail (some 429) : AttemptResult Nat)) 1 [RETRY_DELAY_MS]
      = downloadLoop (fun _ => .fail (some 429)) 2 [RETRY_DELAY_MS, RETRY_DELAY_MS] := by
    rw [downloadLoop]
    rfl
  have e2 : downloadLoop (fun _ => (.fail (some 429) : AttemptResult Nat)) 2
        [RETRY_DELAY_MS, RETRY_DELAY_MS]
      = .ok (none, 3, [RETRY_DELAY_MS, RETRY_DELAY_MS, RETRY_DELAY_MS]) := by
    rw [downloadLoop]
    rfl
  have h := e0.trans (e1.trans e2)
  exact ⟨h, by rw [h]; rfl⟩

/-! ## Claims C5 and C8 — walk lemmas -/

theorem walkEntry_plan (incl : Bool) (fetch : String → FetchResult) (fp : Bool)
    (i n : String) (g : Bool) (cs : List CatalogEntry) (pr : Option (List PricingGet)) :
    walkEntry incl fetch fp (.mk i "plan" n g (some cs) pr)
      = .mk i "plan" n g (some (cs.map (walkEntry incl fetch true)))
          (if incl then attachResult (fetch i) pr else pr) := by
  rw [walkEntry]
  cases incl <;> simp [walkChildren_eq_map]

theorem walkEntry_deployment (incl : Bool) (fetch : String → FetchResult)
    (i n : String) (g : Bool) (pr : Option (List PricingGet)) :
    walkEntry incl fetch true (.mk i "deployment" n g none pr)
      = .mk i "deployment" n g none (attachResult (fetch i) pr) := by
  rw [walkEntry]
  simp

theorem walk_attaches_sibling (incl : Bool) (fetch : String → FetchResult)
    (i n : String) (g : Bool) (cs : List CatalogEntry) (pr : Option (List PricingGet))
    (c : CatalogEntry) (p : PricingGet)
    (hc : c ∈ cs) (hk : c.kind = "deployment") (hch : c.children = none)
    (hf : fetch c.id = .ok (some p)) :
    CatalogEntry.mk c.id c.kind c.name c.group none (some [p])
      ∈ ((walkEntry incl fetch false (.mk i "plan" n g (some cs) pr)).children.getD []) := by
  rw [walkEntry_plan]
  refine List.mem_map.mpr ⟨c, hc, ?_⟩
  obtain ⟨ci, ck, cn, cg, ccs, cpr⟩ := c
  simp only [CatalogEntry.kind] at hk
  simp only [CatalogEntry.children] at hch
  subst hk hch
  rw [walkEntry_deployment]
  simp only [CatalogEntry.id] at hf
  rw [hf]
  rfl

/-! ## Claim C5 -/

def demoAmount : AmountEntry :=
  { country := some "USA", currency := some "USD",
    prices := some [{ price := 3, quantity_tier := 100 }] }

def demoMetric : GCMetric :=
  { metric_id := some "m1"
    tier_model := some "Linear"
    charge_unit_name := some "GB"
    charge_unit := some "gigabyte"
    charge_unit_quantity := some "1"
    amounts := some [demoAmount] }

def demoPricing : PricingGet :=
  { type := "paygo", deployment_location := "us-south", metrics := some [demoMetric] }

def demoDeployment (i : String) : CatalogEntry :=
  .mk i "deployment" ("dep-" ++ i) false none none

def demoPlan : CatalogEntry :=
  .mk "plan1" "plan" "Lite" false
    (some [demoDeployment "d1", demoDeployment "d2", demoDeployment "d3",
           demoDeployment "d4", demoDeployment "d5"]) none

def demoService : CatalogEntry :=
  .mk "svc1" "service" "cloudant" false (some [demoPlan]) none

def demoFetch : String → FetchResult := fun i =>
  if i = "d3" ∨ i = "plan1" then .axiosErr (some 404)
  else if i = "d1" ∨ i = "d2" ∨ i = "d4" ∨ i = "d5" then .ok (some demoPricing)
  else .otherErr true

/-- C5: a 404 pricing fetch is swallowed — it produces no error log and leaves
the node's `pricingChildren` unattached — while every sibling whose fetch
succeeded is attached by the same walk (the walk is a total function, so no
exception propagates); end to end, the demo tree with one 404 among five
siblings logs nothing and still yields the four products of the successful
siblings. -/
theorem walk_swallows_404 :
    fetchLogs (.axiosErr (some 404)) = [] ∧
    (∀ pr : Option (List PricingGet), attachResult (.axiosErr (some 404)) pr = pr) ∧
    (∀ (incl : Bool) (fetch : String → FetchResult) (i n : String) (g : Bool)
        (cs : List CatalogEntry) (pr : Option (List PricingGet)) (c : CatalogEntry)
        (p : PricingGet),
        c ∈ cs → c.kind = "deployment" → c.children = none → fetch c.id = .ok (some p) →
        CatalogEntry.mk c.id c.kind c.name c.group none (some [p])
          ∈ ((walkEntry incl fetch false (.mk i "plan" n g (some cs) pr)).children.getD [])) ∧
    walkLogsEntry true demoFetch false demoService = [] ∧
    (parseProductsList id "2023" "service" [walkEntry true demoFetch false demoService]).map
        (List.map Product.sku)
      = some ["cloudant-Lite", "cloudant-Lite", "cloudant-Lite", "cloudant-Lite"] := by
  refine ⟨rfl, fun pr => rfl, ?_, rfl, by rfl⟩
  intro incl fetch i n g cs pr c p hc hk hch hf
  exact walk_attaches_sibling incl fetch i n g cs pr c p hc hk hch hf

/-- C5 witness: the general sibling-attachment fact applied to the demo tree:
sibling d1 (whose fetch succeeded) is attached even though d3's fetch 404s. -/
theorem walk_swallows_404_witness :
    CatalogEntry.mk "d1" "deployment" "dep-d1" false none (some [demoPricing])
      ∈ ((walkEntry true demoFetch false
            (.mk "plan1" "plan" "Lite" false
              (some [demoDeployment "d1", demoDeployment "d2", demoDeployment "d3",
                     demoDeployment "d4", demoDeployment "d5"]) none)).children.getD []) :=
  walk_swallows_404.2.2.1 true demoFetch "plan1" "Lite" false
    [demoDeployment "d1", demoDeployment "d2", demoDeployment "d3",
     demoDeployment "d4", demoDeployment "d5"] none (demoDeployment "d1") demoPricing
    (List.mem_cons_self _ _) rfl rfl rfl

/-! ## Claim C8 -/

/-- C8 (amended): for a popped `plan` node with a defined children array, the
src/src walker's fetch targets are the plan itself followed by its deployment
children, processed in chunks of at most 8 whose concatenation is exactly that
target list; the walk attaches the plan's own fetch result and each deployment
child's fetch result.  (part_003's variant omits the plan itself — see the
counterexample.) -/
theorem plan_fetch_targets :
    (∀ e : CatalogEntry, (chunk8 (fetchTargets e)).flatten = e :: deploymentChildrenOf e) ∧
    (∀ (e : CatalogEntry) (ch : List CatalogEntry),
        ch ∈ chunk8 (fetchTargets e) → ch.length ≤ 8 ∧ ch ≠ []) ∧
    (∀ (fetch : String → FetchResult) (i n : String) (g : Bool)
        (cs : List CatalogEntry) (pr : Option (List PricingGet)),
        (walkEntry true fetch false (.mk i "plan" n g (some cs) pr)).pricingChildren
          = attachResult (fetch i) pr) ∧
    (∀ (fetch : String → FetchResult) (i n : String) (g : Bool)
        (cs : List CatalogEntry) (pr : Option (List PricingGet)) (c : CatalogEntry)
        (p : PricingGet),
        c ∈ cs → c.kind = "deployment" → c.children = none → fetch c.id = .ok (some p) →
        CatalogEntry.mk c.id c.kind c.name c.group none (some [p])
          ∈ ((walkEntry true fetch false (.mk i "plan" n g (some cs) pr)).children.getD [])) := by
  refine ⟨?_, ?_, ?_, ?_⟩
  · intro e
    rw [chunk8_flatten, fetchTargets]
  · intro e ch hch
    exact chunk8_mem _ ch hch
  · intro fetch i n g cs pr
    rw [walkEntry_plan]
    rfl
  · intro fetch i n g cs pr c p hc hk hch hf
    exact walk_attaches_sibling true fetch i n g cs pr c p hc hk hch hf

/-- A plan with a single deployment child. -/
def soloDeployment : CatalogEntry := .mk "d1" "deployment" "dn" false none none

def soloPlan : CatalogEntry :=
  .mk "p1" "plan" "pn" false (some [soloDeployment]) none

/-- Every id resolves to pricing. -/
def allOkFetch : String → FetchResult := fun _ => .ok (some demoPricing)

/-- C8 witness: the src/src walker applied to `soloPlan` attaches the plan's
own pricing-fetch result, and its single chunk is exactly
`[plan, deployment]`. -/
theorem plan_fetch_targets_witness :
    (walkEntry true allOkFetch false (.mk "p1" "plan" "pn" false (some [soloDeployment]) none)).pricingChildren
      = attachResult (allOkFetch "p1") none ∧
    ((chunk8 (fetchTargets soloPlan)).flatten = soloPlan :: deploymentChildrenOf soloPlan) ∧
    CatalogEntry.mk "d1" "deployment" "dn" false none (some [demoPricing])
      ∈ ((walkEntry true allOkFetch false
            (.mk "p1" "plan" "pn" false (some [soloDeployment]) none)).children.getD []) :=
  ⟨plan_fetch_targets.2.2.1 allOkFetch "p1" "pn" false [soloDeployment] none,
   plan_fetch_targets.1 soloPlan,
   plan_fetch_targets.2.2.2 allOkFetch "p1" "pn" false [soloDeployment] none
     soloDeployment demoPricing (List.mem_cons_self _ _) rfl rfl rfl⟩

/-- C8 counterexample: in the part_003 variant the popped plan node itself is
never fetched — even with pricing available for every id, the plan's
`pricingChildren` stays absent (while the src/src walker attaches it), and the
variant's chunked target list contains only the deployment child. -/
theorem planSelf_not_fetched_in_variant :
    (walkEntry false allOkFetch false soloPlan).pricingChildren = none ∧
    allOkFetch "p1" = .ok (some demoPricing) ∧
    fetchTargetsV2 soloPlan = [soloDeployment] ∧
    (walkEntry true allOkFetch false soloPlan).pricingChildren = some [demoPricing] :=
  ⟨rfl, rfl, rfl, rfl⟩
